import Mathlib

/-!
Verification of the log-to-report synthesis engine of the qa-bot repository.

The embedding models the two scenario-preparation functions of the repository
(`prepareScenarioResults` in `src/scenarios/shiny-scenarios.js`, a line-by-line
state machine, and `prepareScenarioResults` in `report-integration.js`, a
name-set based parser with reconciliation), together with the
`TestReportGenerator` summary bookkeeping (`addScenario`), the metrics step of
`processTestLog` combined with `generateSummary`, and the error-extraction loop
of `processTestLog`.

Strings are processed as `List Char`.  JavaScript `new Date()` timestamps are
modelled by a single `now : Nat` parameter (every `new Date()` during one parse
is identified with the parse time); the `steps: []` field, constant in the
source, is omitted.  The concrete regular expressions of the source are
modelled by dedicated matching functions, including the case-insensitive `i`
flag, the greedy backtracking of `"?([^"]*)"?`, and the global `g` scanning of
`matchAll`.  Dynamically built regexes (`new RegExp` on text interpolated from
a scenario name) are modelled literally for names containing no regex
metacharacter; for a name that does contain one, JavaScript `new RegExp` either
throws a `SyntaxError` (for example an unbalanced parenthesis) or matches
non-literally, and the model conservatively reports this as an exceptional
result of the whole function, which in the source propagates as a thrown
exception.
-/

namespace QaBot

/-! ## Character and list utilities -/

/-- JavaScript whitespace as relevant to `String.prototype.trim` and `\s`,
restricted to the ASCII range handled by the model. -/
def isWS (c : Char) : Bool :=
  c = ' ' || c = '\t' || c = '\n' || c = '\r' || c = '\x0b' || c = '\x0c'

/-- `String.prototype.trim`: drop whitespace from both ends. -/
def trimL (s : List Char) : List Char :=
  ((s.dropWhile isWS).reverse.dropWhile isWS).reverse

/-- Characters matched by `.` in a JavaScript regex without the `s` flag:
anything except a line terminator. -/
def notLineTerm (c : Char) : Bool := c ≠ '\n' && c ≠ '\r'

/-- Case-sensitive prefix test: does `hay` start with `needle`? -/
def lstartsWith : List Char → List Char → Bool
  | _, [] => true
  | [], _ :: _ => false
  | h :: hs, n :: ns => h = n && lstartsWith hs ns

/-- Case-insensitive prefix test (models the `i` regex flag by folding both
sides to lower case). -/
def lstartsWithCI : List Char → List Char → Bool
  | _, [] => true
  | [], _ :: _ => false
  | h :: hs, n :: ns => h.toLower = n.toLower && lstartsWithCI hs ns

/-- Case-sensitive substring test, models `String.prototype.includes`. -/
def lcontains (hay needle : List Char) : Bool :=
  match hay with
  | [] => needle.isEmpty
  | _ :: t => lstartsWith hay needle || lcontains t needle

/-- Index of the leftmost case-sensitive occurrence of `needle` in `hay`. -/
def findIdxCS (hay needle : List Char) : Option Nat :=
  match hay with
  | [] => if needle.isEmpty then some 0 else none
  | _ :: t =>
    if lstartsWith hay needle then some 0
    else (findIdxCS t needle).map (· + 1)

/-- Index of the leftmost case-insensitive occurrence of `needle` in `hay`. -/
def findIdxCI (hay needle : List Char) : Option Nat :=
  match hay with
  | [] => if needle.isEmpty then some 0 else none
  | _ :: t =>
    if lstartsWithCI hay needle then some 0
    else (findIdxCI t needle).map (· + 1)

/-- Index of the rightmost case-insensitive occurrence of `needle` in `hay`. -/
def lastIdxCI (hay needle : List Char) : Option Nat :=
  match hay with
  | [] => if needle.isEmpty then some 0 else none
  | _ :: t =>
    match (lastIdxCI t needle).map (· + 1) with
    | some j => some j
    | none => if lstartsWithCI hay needle then some 0 else none

/-- `String.prototype.split('\n')`. -/
def splitNl (s : List Char) : List (List Char) :=
  match s with
  | [] => [[]]
  | c :: t =>
    if c = '\n' then [] :: splitNl t
    else
      match splitNl t with
      | [] => [[c]]
      | l :: ls => (c :: l) :: ls

/-- Split on carriage returns; used to model that `.` cannot cross a `\r`
inside one `\n`-separated line. -/
def splitCR (s : List Char) : List (List Char) :=
  match s with
  | [] => [[]]
  | c :: t =>
    if c = '\r' then [] :: splitCR t
    else
      match splitCR t with
      | [] => [[c]]
      | l :: ls => (c :: l) :: ls

/-- Digits of a decimal literal to a number, models `parseInt` on a `\d+`
capture. -/
def digitsToNat (ds : List Char) : Nat :=
  ds.foldl (fun a c => a * 10 + (c.toNat - 48)) 0

/-- Keep-first deduplication; models insertion into a JavaScript `Set` followed
by iteration in insertion order. -/
def dedupGo (seen : List String) : List String → List String
  | [] => []
  | n :: ns =>
    if seen.contains n then dedupGo seen ns
    else n :: dedupGo (seen ++ [n]) ns

def dedup (l : List String) : List String := dedupGo [] l

/-! ## Matchers for the concrete regexes of the source -/

/-- The literal inside `/Running scenario: (.*)/i`, lower-cased for the
case-insensitive comparison. -/
def startNeedle : List Char := "running scenario: ".toList

/-- `line.match(/Running scenario: (.*)/i)` followed by `match[1].trim()`:
leftmost case-insensitive occurrence, capture to the end of the line
(`.` stops at a line terminator). -/
def lineStartMatch (line : List Char) : Option (List Char) :=
  (findIdxCI line startNeedle).map
    (fun i => trimL ((line.drop (i + startNeedle.length)).takeWhile notLineTerm))

/-- One step of `matchAll` for `/Running scenario: (.*)/gi` at the current
position: on success returns the raw capture and the total length consumed by
the match. -/
def matchStartAt (s : List Char) : Option (List Char × Nat) :=
  if lstartsWithCI s startNeedle then
    let cap := (s.drop startNeedle.length).takeWhile notLineTerm
    some (cap, startNeedle.length + cap.length)
  else none

/-- `[...testLog.matchAll(/Running scenario: (.*)/gi)]`: scan left to right,
resuming after the end of each match.  `fuel` bounds the recursion; it is
instantiated with a value larger than the text length. -/
def scanAllStart (fuel : Nat) (s : List Char) : List (List Char) :=
  match fuel with
  | 0 => []
  | fuel + 1 =>
    match s with
    | [] => []
    | _ :: t =>
      match matchStartAt s with
      | some (cap, k) => cap :: scanAllStart fuel (s.drop k)
      | none => scanAllStart fuel t

/-- The literal `scenario` + space prefix of
`/Scenario "?([^"]*)"? completed successfully/i` and
`/Scenario "?([^"]*)"? failed/i`. -/
def scenNeedle : List Char := "scenario ".toList

/-- Greedy match of `([^"]*)"?TAIL` against `s` (the part of the quoted
scenario patterns after the optional opening quote): returns the captured body
and the number of characters consumed.  Mirrors the backtracking order of the
JavaScript engine: the body extends as far as possible first. -/
def bodyMatch (s tailLit : List Char) : Option (List Char × Nat) :=
  match s with
  | [] => if tailLit.isEmpty then some ([], 0) else none
  | c :: t =>
    if c = '"' then
      -- the body cannot contain a quote: `"?` may consume this one, then the tail
      if lstartsWithCI t tailLit then some ([], 1 + tailLit.length) else none
    else
      match bodyMatch t tailLit with
      | some (b, k) => some (c :: b, k + 1)
      | none =>
        -- backtrack: end the body here, `"?` matches empty, tail must follow
        if lstartsWithCI s tailLit then some ([], tailLit.length) else none

/-- Greedy match of `"?([^"]*)"?TAIL` against `r`. -/
def quotedMatch (r tailLit : List Char) : Option (List Char × Nat) :=
  match r with
  | '"' :: t => (bodyMatch t tailLit).map (fun p => (p.1, p.2 + 1))
  | _ => bodyMatch r tailLit

/-- Try the full pattern `Scenario "?([^"]*)"?TAIL` (case-insensitive) at the
current position. -/
def matchScenTailAt (s tailLit : List Char) : Option (List Char × Nat) :=
  if lstartsWithCI s scenNeedle then
    (quotedMatch (s.drop scenNeedle.length) tailLit).map
      (fun p => (p.1, scenNeedle.length + p.2))
  else none

/-- `text.match(/Scenario "?([^"]*)"?TAIL/i)`: capture of the leftmost
match. -/
def scanFirstScen (s tailLit : List Char) : Option (List Char) :=
  match s with
  | [] => none
  | _ :: t =>
    match matchScenTailAt s tailLit with
    | some (b, _) => some b
    | none => scanFirstScen t tailLit

/-- `matchAll` for the quoted scenario patterns with the `g` flag: all
captures, scanning left to right and resuming after each match. -/
def scanAllScen (fuel : Nat) (s tailLit : List Char) : List (List Char) :=
  match fuel with
  | 0 => []
  | fuel + 1 =>
    match s with
    | [] => []
    | _ :: t =>
      match matchScenTailAt s tailLit with
      | some (b, k) => b :: scanAllScen fuel (s.drop k) tailLit
      | none => scanAllScen fuel t tailLit

/-- Tail literal of the completion patterns. -/
def completeTail : List Char := " completed successfully".toList

/-- Tail literal of `/Scenario "?([^"]*)"? failed/i`. -/
def failedTail : List Char := " failed".toList

/-- `line.match(/(.*) completed successfully/i)` capture: the leading `(.*)`
cannot cross a `\r`, so the first `\r`-free segment of the line containing the
tail is found and the greedy capture runs to the last occurrence of the tail
inside it. -/
def simpleCompleteCap (line : List Char) : Option (List Char) :=
  (splitCR line).findSome? (fun seg => (lastIdxCI seg completeTail).map (seg.take ·))

/-- `line.match(scenarioCompleteRegex) || line.match(simpleCompleteRegex)`,
returning the raw capture of whichever matched first. -/
def completeCapOf (line : List Char) : Option (List Char) :=
  match scanFirstScen line completeTail with
  | some b => some b
  | none => simpleCompleteCap line

/-- The literal inside `/Warning: (.*)/i`. -/
def warnNeedle : List Char := "warning: ".toList

/-- `line.match(/Warning: (.*)/i)` capture (the source pushes it without
trimming). -/
def warnCap (line : List Char) : Option (List Char) :=
  (findIdxCI line warnNeedle).map
    (fun i => (line.drop (i + warnNeedle.length)).takeWhile notLineTerm)

/-- `testLog.match(/Total scenarios: (\d+)/)` (case-sensitive, leftmost):
requires at least one digit directly after the literal and captures the
maximal digit run. -/
def parseTotal (s : List Char) : Option Nat :=
  match s with
  | [] => none
  | _ :: t =>
    if lstartsWith s "Total scenarios: ".toList then
      let ds := (s.drop 17).takeWhile Char.isDigit
      if ds.isEmpty then parseTotal t else some (digitsToNat ds)
    else parseTotal t

/-- `logContent.match(/Average response time:\s*(\d+)ms/)`: literal, then
whitespace, then a nonempty digit run that must be followed by `ms`. -/
def parseRespTime (s : List Char) : Option Nat :=
  match s with
  | [] => none
  | _ :: t =>
    if lstartsWith s "Average response time:".toList then
      let r := (s.drop 22).dropWhile isWS
      let ds := r.takeWhile Char.isDigit
      if ds.isEmpty then parseRespTime t
      else if lstartsWith (r.drop ds.length) "ms".toList then some (digitsToNat ds)
      else parseRespTime t
    else parseRespTime t

/-! ## Data model -/

/-- Scenario status values used by the source (`'running'`, `'passed'`,
`'failed'`, `'warning'`). -/
inductive Status where
  | running
  | passed
  | failed
  | warning
deriving DecidableEq, Repr

/-- A scenario result record.  `startTime`/`endTime` model the `new Date()`
values (see the header comment); `duration` and `error` are absent (`none`)
until the source assigns them.  The constant `steps: []` field of the source is
omitted. -/
structure Scenario where
  id : Nat
  name : String
  status : Status
  startTime : Nat
  endTime : Option Nat
  duration : Option Nat
  error : Option String
  warnings : List String
deriving DecidableEq, Repr

/-- A default / filler entry: status passed, placeholder duration, both
timestamps at parse time. -/
def mkDefault (now : Nat) (i : Nat) (name : String) : Scenario :=
  { id := i, name := name, status := .passed, startTime := now,
    endTime := some now, duration := some 5000, error := none, warnings := [] }

/-- `createDefaultScenarios` from `src/utils/helpers.js` (also inlined as the
fallback in the report-generator module): the three-name canonical pool, the
`forEach` with the post-incremented id unrolled. -/
def createDefaultScenarios3 (now : Nat) : List Scenario :=
  [mkDefault now 1 "Tab Navigation", mkDefault now 2 "Dashboard Controls",
   mkDefault now 3 "Responsiveness Test"]

/-- The four-name canonical pool of `report-integration.js`. -/
def pool4 : List String :=
  ["Navigate Dashboard Tabs", "Test Dashboard Input Controls",
   "Test Dashboard Plot Interactions", "Test Dashboard Responsiveness"]

/-- `createDefaultScenarios` from `report-integration.js`, the `forEach` with
the post-incremented id unrolled. -/
def createDefaultScenarios4 (now : Nat) : List Scenario :=
  [mkDefault now 1 "Navigate Dashboard Tabs",
   mkDefault now 2 "Test Dashboard Input Controls",
   mkDefault now 3 "Test Dashboard Plot Interactions",
   mkDefault now 4 "Test Dashboard Responsiveness"]

/-! ## `prepareScenarioResults` from `report-integration.js` -/

/-- Characters that are significant in a JavaScript regular expression.  A
scenario name containing none of these is interpolated into `new RegExp(...)`
as pure literal text; a name containing one either makes `new RegExp` throw a
`SyntaxError` (e.g. an unbalanced `(`) or changes the meaning of the match. -/
def regexSafeChar (c : Char) : Bool :=
  !("\\^$.*+?()[]{}|".toList.contains c)

def regexSafeName (n : List Char) : Bool := n.all regexSafeChar

/-- Error value standing for the exception that `prepareScenarioResults`
propagates when `new RegExp` is given an invalid pattern. -/
def regexErrMsg : String := "SyntaxError: invalid regular expression"

/-- Scenario names extracted from the log: `matchAll` of the start pattern,
then `matchAll` of the quoted completion pattern, each capture trimmed and
inserted into a `Set` (keep-first order). -/
def scenarioNamesOf (log : List Char) : List String :=
  dedup
    (((scanAllStart (log.length + 1) log).map (fun l => String.mk (trimL l))) ++
     ((scanAllScen (log.length + 1) log completeTail).map (fun l => String.mk (trimL l))))

/-- `(findIdxCS ...)`-based capture of the dynamic pattern `LIT(.*)`: leftmost
case-sensitive occurrence of `LIT`, capture to the end of the line. -/
def captureAfter (log needle : List Char) : Option (List Char) :=
  (findIdxCS log needle).map
    (fun i => (log.drop (i + needle.length)).takeWhile notLineTerm)

/-- One scenario record of the per-name loop of
`report-integration.js::prepareScenarioResults`:
`isCompleted` via the two dynamic completion patterns, `failedMatch` via the
two dynamic failure patterns, status `failed`/`passed`/`warning`, error
`failedMatch[1] || 'Scenario failed'`. -/
def riBuild (now : Nat) (log : List Char) (c : Nat) (name : String) : Scenario :=
  let failedCap :=
    match captureAfter log ("Scenario \"" ++ name ++ "\" failed: ").toList with
    | some d => some d
    | none => captureAfter log (name ++ " failed: ").toList
  let completed :=
    lcontains log ("Scenario \"" ++ name ++ "\" completed successfully").toList ||
    lcontains log (name ++ " completed successfully").toList
  { id := c, name := name,
    status :=
      match failedCap with
      | some _ => .failed
      | none => if completed then .passed else .warning,
    startTime := now, endTime := some now, duration := some 5000,
    error :=
      match failedCap with
      | some d => some (if d.isEmpty then "Scenario failed" else String.mk d)
      | none => none,
    warnings := [] }

/-- The per-name loop: builds one scenario per extracted name with the shared
post-incremented id counter; the first name that is not literal-safe for
`new RegExp` aborts the whole computation (thrown `SyntaxError`). -/
def buildNamed (now : Nat) (log : List Char) :
    List String → Nat → Except String (List Scenario × Nat)
  | [], c => .ok ([], c)
  | n :: ns, c =>
    if regexSafeName n.toList then
      match buildNamed now log ns (c + 1) with
      | .ok (rest, cf) => .ok (riBuild now log c n :: rest, cf)
      | .error e => .error e
    else .error regexErrMsg

/-- The pool top-up loop of the reconciliation step: append each pool name not
already known, stopping as soon as the declared total is reached.  The state is
the full scenario list so far together with the id counter. -/
def topUpGo (now total : Nat) (known : List String) :
    List String → List Scenario × Nat → List Scenario × Nat
  | [], st => st
  | p :: ps, (acc, c) =>
    if known.contains p then topUpGo now total known ps (acc, c)
    else
      let acc2 := acc ++ [mkDefault now c p]
      if acc2.length ≥ total then (acc2, c + 1)
      else topUpGo now total known ps (acc2, c + 1)

/-- The `while (scenarios.length < totalScenarios)` filler loop: each appended
entry takes the current counter as id and — because the counter is
post-incremented before the template string is evaluated — the *next* counter
value in its name. -/
def fillGo (now total : Nat) : Nat → List Scenario × Nat → List Scenario × Nat
  | 0, st => st
  | fuel + 1, (acc, c) =>
    if acc.length < total then
      fillGo now total fuel
        (acc ++ [mkDefault now c ("Unknown Scenario " ++ toString (c + 1))], c + 1)
    else (acc, c)

/-- The `Total scenarios` reconciliation block: when a declared total exists
and exceeds the reconstructed count, top up from the pool and then fill with
synthetic entries. -/
def riReconcile (now : Nat) (log : List Char) (scens : List Scenario)
    (c0 : Nat) : List Scenario :=
  match parseTotal log with
  | some t =>
    if scens.length < t then
      (fillGo now t t
        (topUpGo now t (scens.map (fun s => s.name)) pool4 (scens, c0))).1
    else scens
  | none => scens

/-- `prepareScenarioResults` from `report-integration.js` (the reconciliation
variant): default pool when the log has no scenario vocabulary, per-name
reconstruction, top-up against the declared total, filler entries, and a final
default fallback.  The error case models the propagated `SyntaxError` of a
dynamically built regex (see `regexSafeChar`). -/
def riPrepareScenarioResults (now : Nat) (logS : String) :
    Except String (List Scenario) :=
  let log := logS.toList
  if !(lcontains log "Scenario".toList) && (parseTotal log).isNone then
    .ok (createDefaultScenarios4 now)
  else
    match buildNamed now log (scenarioNamesOf log) 1 with
    | .error e => .error e
    | .ok (scens, c0) =>
      let scens2 := riReconcile now log scens c0
      if scens2.isEmpty then .ok (createDefaultScenarios4 now) else .ok scens2

/-! ## `prepareScenarioResults` from `shiny-scenarios.js` (state machine) -/

/-- The fold state of the line loop: result list, open scenario, id counter. -/
structure ShinyState where
  scenarios : List Scenario
  current : Option Scenario
  counter : Nat
deriving DecidableEq, Repr

/-- The loose correlation rule: the extracted name is a substring of the open
scenario's name, or vice versa, or the raw line contains the open scenario's
name. -/
def correlate (nm : List Char) (line : List Char) (cur : Scenario) : Bool :=
  lcontains nm cur.name.toList || lcontains cur.name.toList nm ||
  lcontains line cur.name.toList

/-- The warning check of the line loop: append the captured text to the open
scenario's warnings and demote a still-running scenario to warning (the source
pushes first and then tests the status, which the push does not change). -/
def shinyWarnCheck (line : List Char) (c : Scenario) : Scenario :=
  match warnCap line with
  | some w =>
    if c.status = .running then
      { c with warnings := c.warnings ++ [String.mk w], status := .warning }
    else { c with warnings := c.warnings ++ [String.mk w] }
  | none => c

/-- The failure check of the line loop: on an accepted correlation the status
becomes failed with the fixed generic error string (the failure regex of this
function captures no detail) and the placeholder duration; otherwise fall
through to the warning check. -/
def shinyFailedCheck (now : Nat) (line : List Char) (c : Scenario) : Scenario :=
  match scanFirstScen line failedTail with
  | some cap =>
    if correlate (trimL cap) line c then
      { c with status := .failed, error := some "Scenario failed",
               endTime := some now, duration := some 5000 }
    else shinyWarnCheck line c
  | none => shinyWarnCheck line c

/-- Completion / failure / warning handling for one line against the open
scenario.  A completion or failure match whose correlation fails falls through
to the next check, exactly as the source's missing `continue`. -/
def shinyLineRest (now : Nat) (line : List Char) (cur : Scenario) : Scenario :=
  match completeCapOf line with
  | some cap =>
    if correlate (trimL cap) line cur then
      { cur with status := .passed, endTime := some now, duration := some 5000 }
    else shinyFailedCheck now line cur
  | none => shinyFailedCheck now line cur

/-- One line of the state machine: a start line closes and appends the open
scenario *without resolving its status* and opens a fresh one; any other line
is ignored when no scenario is open. -/
def shinyStep (now : Nat) (st : ShinyState) (line : List Char) : ShinyState :=
  match lineStartMatch line with
  | some nm =>
    { scenarios :=
        match st.current with
        | some c => st.scenarios ++ [c]
        | none => st.scenarios,
      current := some { id := st.counter, name := String.mk nm, status := .running,
                        startTime := now, endTime := none, duration := none,
                        error := none, warnings := [] },
      counter := st.counter + 1 }
  | none =>
    match st.current with
    | none => st
    | some cur => { st with current := some (shinyLineRest now line cur) }

/-- End-of-input resolution: a still-running scenario is marked passed. -/
def resolveCurrent (now : Nat) (c : Scenario) : Scenario :=
  if c.status = .running then
    { c with status := .passed, endTime := some now, duration := some 5000 }
  else c

/-- Post-loop assembly: append the still-open scenario (resolved) and fall
back to the defaults on an empty result (the final emptiness check of the
source, distributed over the two shapes of the open-scenario state). -/
def shinyAssemble (now : Nat) (fin : ShinyState) : List Scenario :=
  match fin.current with
  | some c =>
    if (fin.scenarios ++ [resolveCurrent now c]).isEmpty then
      createDefaultScenarios3 now
    else fin.scenarios ++ [resolveCurrent now c]
  | none =>
    if fin.scenarios.isEmpty then createDefaultScenarios3 now
    else fin.scenarios

/-- `prepareScenarioResults` from `shiny-scenarios.js`: guards (empty log,
minimum length 300, no start matches), then the line loop, then the final
append of the open scenario. -/
def shinyPrepareScenarioResults (now : Nat) (logS : String) : List Scenario :=
  let log := logS.toList
  if log.isEmpty then createDefaultScenarios3 now
  else if log.length < 300 then createDefaultScenarios3 now
  else if ((scanAllStart (log.length + 1) log).map (fun l => String.mk (trimL l))).isEmpty
  then createDefaultScenarios3 now
  else shinyAssemble now ((splitNl log).foldl (shinyStep now) ⟨[], none, 1⟩)

/-! ## Report builder: summary counts, metrics, error extraction -/

/-- The summary counters of `TestReportGenerator` (success rate omitted: its
division by zero yields `NaN`, which has no counterpart here and is not needed
by any claim). -/
structure Summary where
  total : Nat
  passed : Nat
  failed : Nat
  warning : Nat
deriving DecidableEq, Repr

def initialSummary : Summary := ⟨0, 0, 0, 0⟩

/-- `TestReportGenerator.addScenario`: always increments `total`, and exactly
one of the three buckets when the status is one of the three recognized
strings. -/
def addScenario (sm : Summary) (s : Scenario) : Summary :=
  { total := sm.total + 1,
    passed := sm.passed + (if s.status = .passed then 1 else 0),
    failed := sm.failed + (if s.status = .failed then 1 else 0),
    warning := sm.warning + (if s.status = .warning then 1 else 0) }

/-- JavaScript truthiness of a `duration` field: present and nonzero. -/
def durTruthy : Option Nat → Bool
  | none => false
  | some d => d ≠ 0

/-- The `averageResponseTime` that `processTestLog` stores via `addMetrics`:
the marker value when the log has one, otherwise the literal default 500. -/
def processedART (log : List Char) : Nat :=
  match parseRespTime log with
  | some x => x
  | none => 500

/-- The adjustment in `TestReportGenerator.generateSummary`: only when the
stored value is falsy (0) and some scenario carries a truthy duration is the
arithmetic mean of those durations substituted. -/
def summaryART (art : Nat) (scens : List Scenario) : ℚ :=
  if art = 0 ∧ 0 < scens.length then
    let withDur := scens.filter (fun s => durTruthy s.duration)
    if 0 < withDur.length then
      ((withDur.map (fun s => ((s.duration.getD 0 : Nat) : ℚ))).sum) / withDur.length
    else (art : ℚ)
  else (art : ℚ)

/-- `averageResponseTime` of the produced report for a given log and scenario
list: `addMetrics` value from `processTestLog` composed with the
`generateSummary` adjustment. -/
def pipelineART (log : String) (scens : List Scenario) : ℚ :=
  summaryART (processedART log.toList) scens

/-- `logContent.indexOf('\n', i)` as an integer (−1 when absent). -/
def jsIndexOfNl (s : List Char) (start : Nat) : Int :=
  match (s.drop start).findIdx? (fun c => c = '\n') with
  | some j => (start + j : Nat)
  | none => -1

/-- ECMAScript `String.prototype.substring`: clamp both arguments to
`[0, length]` and swap them when out of order. -/
def jsSubstring (s : List Char) (a b : Int) : List Char :=
  let n : Int := s.length
  let a2 := (max 0 (min a n)).toNat
  let b2 := (max 0 (min b n)).toNat
  ((s.drop (min a2 b2)).take (max a2 b2 - min a2 b2))

/-- One step of the `/Error:|failed:/gi` exec loop: leftmost case-insensitive
occurrence of either alternative, with its match length. -/
def findErrIdx (s : List Char) : Option (Nat × Nat) :=
  match s with
  | [] => none
  | _ :: t =>
    if lstartsWithCI s "error:".toList then some (0, 6)
    else if lstartsWithCI s "failed:".toList then some (0, 7)
    else (findErrIdx t).map (fun p => (p.1 + 1, p.2))

/-- The error-extraction `while` loop of `processTestLog`: for every match the
recorded message is `substring(match.index, indexOf('\n', match.index))`
trimmed — including the `indexOf = −1` behaviour on a final line without a
trailing newline. -/
def extractErrorsGo (log : List Char) : Nat → Nat → List String
  | 0, _ => []
  | fuel + 1, pos =>
    match findErrIdx (log.drop pos) with
    | none => []
    | some (j, len) =>
      let i := pos + j
      let msg := trimL (jsSubstring log (i : Int) (jsIndexOfNl log i))
      String.mk msg :: extractErrorsGo log fuel (i + len)

/-- Messages appended to the report's error list by `processTestLog`, in
order (each with `scenario: 'Unknown'`, not modelled separately). -/
def extractErrors (logS : String) : List String :=
  extractErrorsGo logS.toList (logS.toList.length + 1) 0

/-! ## Time abstraction and projections -/

/-- Overwrite the wall-clock-derived fields of a scenario with a given parse
time; every other field is untouched. -/
def setTimes (now : Nat) (s : Scenario) : Scenario :=
  { s with startTime := now, endTime := s.endTime.map (fun _ => now) }

/-- The name / status / id projection used by the idempotence claim. -/
def nsiProj (s : Scenario) : String × Status × Nat := (s.name, s.status, s.id)

/-! ## Concrete logs used by the claims -/

/-- The concrete log of the spec's concrete-scenario test case. -/
def c2log : String :=
  "Running scenario: Tab Navigation\nScenario \"Tab Navigation\" completed successfully\nRunning scenario: Dashboard Controls\nScenario \"Dashboard Controls\" failed: timeout\nTotal scenarios: 4"

/-- The scenario list that `report-integration.js::prepareScenarioResults`
produces for `c2log` at parse time 0. -/
def c2Expected : List Scenario :=
  [{ id := 1, name := "Tab Navigation", status := .passed, startTime := 0,
     endTime := some 0, duration := some 5000, error := none, warnings := [] },
   { id := 2, name := "Dashboard Controls", status := .failed, startTime := 0,
     endTime := some 0, duration := some 5000, error := some "timeout", warnings := [] },
   mkDefault 0 3 "Navigate Dashboard Tabs",
   mkDefault 0 4 "Test Dashboard Input Controls"]

/-- Padding with no pattern matches, used to pass the 300-character minimum of
the state-machine variant. -/
def padX : String :=
  String.mk (List.replicate 260 'x')

/-- A log in which a second `Running scenario:` line arrives while the first
scenario is still open. -/
def c1log : String :=
  "Running scenario: Alpha\nRunning scenario: Beta\n" ++ padX

/-- A log whose failure line carries the detail `timeout`. -/
def c6log : String :=
  "Running scenario: Alpha\nScenario \"Alpha\" failed: timeout\n" ++ padX

/-- A log whose scenario name contains an unbalanced parenthesis, so that the
dynamically built `new RegExp` of `report-integration.js` throws. -/
def c5log : String := "Running scenario: foo(\nTotal scenarios: 1"

/-- The declared total of a log (0 when the `Total scenarios` marker is
absent). -/
def declaredTotal (log : List Char) : Nat := (parseTotal log).getD 0

/-- The scenario vocabulary test of the reconciliation variant's first guard:
the literal `Scenario` or a declared-total marker. -/
def hasScenVocab (log : List Char) : Bool :=
  lcontains log "Scenario".toList || (parseTotal log).isSome

/-- A scenario that reports failure carries the generic error string and the
placeholder duration. -/
def failedGeneric (s : Scenario) : Prop :=
  s.status = .failed → s.error = some "Scenario failed" ∧ s.duration = some 5000

/-- Invariant of the fold state: a property of every closed scenario and of
the open one. -/
def scenInv (P : Scenario → Prop) (st : ShinyState) : Prop :=
  (∀ s ∈ st.scenarios, P s) ∧ (∀ c, st.current = some c → P c)

/-- Time abstraction lifted to the fold state of the state machine. -/
def setTimesState (now : Nat) (st : ShinyState) : ShinyState :=
  { scenarios := st.scenarios.map (setTimes now),
    current := st.current.map (setTimes now),
    counter := st.counter }

/-! ## Field lemmas for the time abstraction -/

@[simp] theorem setTimes_name (now : Nat) (s : Scenario) :
    (setTimes now s).name = s.name := rfl

@[simp] theorem setTimes_status (now : Nat) (s : Scenario) :
    (setTimes now s).status = s.status := rfl

@[simp] theorem setTimes_id (now : Nat) (s : Scenario) :
    (setTimes now s).id = s.id := rfl

@[simp] theorem setTimes_warnings (now : Nat) (s : Scenario) :
    (setTimes now s).warnings = s.warnings := rfl

@[simp] theorem setTimes_error (now : Nat) (s : Scenario) :
    (setTimes now s).error = s.error := rfl

@[simp] theorem setTimes_duration (now : Nat) (s : Scenario) :
    (setTimes now s).duration = s.duration := rfl

@[simp] theorem setTimes_mkDefault (now i : Nat) (name : String) :
    setTimes now (mkDefault 0 i name) = mkDefault now i name := rfl

@[simp] theorem nsiProj_setTimes (now : Nat) (s : Scenario) :
    nsiProj (setTimes now s) = nsiProj s := rfl

/-! ## Structural lemmas about the reconciliation variant -/

theorem mem_defaults3_status (now : Nat) (s : Scenario)
    (h : s ∈ createDefaultScenarios3 now) : s.status = .passed := by
  simp only [createDefaultScenarios3, List.mem_cons, List.mem_singleton,
    List.not_mem_nil, or_false] at h
  rcases h with h | h | h <;> subst h <;> rfl

theorem mem_defaults4_status (now : Nat) (s : Scenario)
    (h : s ∈ createDefaultScenarios4 now) : s.status = .passed := by
  simp only [createDefaultScenarios4, List.mem_cons, List.mem_singleton,
    List.not_mem_nil, or_false] at h
  rcases h with h | h | h | h <;> subst h <;> rfl

theorem riBuild_status (now : Nat) (log : List Char) (c : Nat) (n : String) :
    (riBuild now log c n).status ≠ .running := by
  unfold riBuild
  cases captureAfter log ("Scenario \"" ++ n ++ "\" failed: ").toList <;>
    cases captureAfter log (n ++ " failed: ").toList <;>
      simp only [] <;> (try split) <;> decide

/-- Unfolding equation for the cons case of the per-name loop. -/
theorem buildNamed_cons (now : Nat) (log : List Char) (n : String)
    (ns : List String) (c : Nat) :
    buildNamed now log (n :: ns) c =
      (if regexSafeName n.toList then
        match buildNamed now log ns (c + 1) with
        | .ok (rest, cf) => .ok (riBuild now log c n :: rest, cf)
        | .error e => .error e
      else .error regexErrMsg) := rfl

theorem buildNamed_ok_length (now : Nat) (log : List Char) :
    ∀ (ns : List String) (c : Nat) (l : List Scenario) (cf : Nat),
      buildNamed now log ns c = .ok (l, cf) → l.length = ns.length := by
  intro ns
  induction ns with
  | nil =>
    intro c l cf h
    simp only [buildNamed, Except.ok.injEq, Prod.mk.injEq] at h
    simp [← h.1]
  | cons n ns ih =>
    intro c l cf h
    rw [buildNamed_cons] at h
    cases hs : regexSafeName n.toList with
    | false => rw [hs] at h; simp at h
    | true =>
      rw [hs] at h
      simp only [if_true] at h
      cases hrec : buildNamed now log ns (c + 1) with
      | error e => rw [hrec] at h; simp at h
      | ok p =>
        obtain ⟨rest, cf2⟩ := p
        rw [hrec] at h
        simp only [Except.ok.injEq, Prod.mk.injEq] at h
        obtain ⟨h1, _⟩ := h
        subst h1
        simp [ih (c + 1) rest cf2 hrec]

theorem buildNamed_ok_status (now : Nat) (log : List Char) :
    ∀ (ns : List String) (c : Nat) (l : List Scenario) (cf : Nat),
      buildNamed now log ns c = .ok (l, cf) → ∀ s ∈ l, s.status ≠ .running := by
  intro ns
  induction ns with
  | nil =>
    intro c l cf h
    simp only [buildNamed, Except.ok.injEq, Prod.mk.injEq] at h
    intro s hs
    rw [← h.1] at hs
    exact absurd hs (List.not_mem_nil s)
  | cons n ns ih =>
    intro c l cf h
    rw [buildNamed_cons] at h
    cases hs : regexSafeName n.toList with
    | false => rw [hs] at h; simp at h
    | true =>
      rw [hs] at h
      simp only [if_true] at h
      cases hrec : buildNamed now log ns (c + 1) with
      | error e => rw [hrec] at h; simp at h
      | ok p =>
        obtain ⟨rest, cf2⟩ := p
        rw [hrec] at h
        simp only [Except.ok.injEq, Prod.mk.injEq] at h
        obtain ⟨h1, _⟩ := h
        subst h1
        intro s hsm
        rcases List.mem_cons.mp hsm with h2 | h2
        · subst h2; exact riBuild_status now log c n
        · exact ih (c + 1) rest cf2 hrec s h2

/-- Unfolding equation for the cons case of the pool top-up loop. -/
theorem topUpGo_cons (now total : Nat) (known : List String) (p : String)
    (ps : List String) (acc : List Scenario) (c : Nat) :
    topUpGo now total known (p :: ps) (acc, c) =
      (if known.contains p then topUpGo now total known ps (acc, c)
       else if (acc ++ [mkDefault now c p]).length ≥ total then
         (acc ++ [mkDefault now c p], c + 1)
       else topUpGo now total known ps (acc ++ [mkDefault now c p], c + 1)) := rfl

theorem topUpGo_mem (now total : Nat) (known : List String) :
    ∀ (pool : List String) (acc : List Scenario) (c : Nat) (s : Scenario),
      s ∈ (topUpGo now total known pool (acc, c)).1 →
        s ∈ acc ∨ s.status = .passed := by
  intro pool
  induction pool with
  | nil => intro acc c s h; exact Or.inl h
  | cons p ps ih =>
    intro acc c s h
    rw [topUpGo_cons] at h
    cases hk : known.contains p with
    | true => rw [hk] at h; simp only [if_true] at h; exact ih acc c s h
    | false =>
      rw [hk] at h
      simp only [Bool.false_eq_true, if_false] at h
      by_cases hl : (acc ++ [mkDefault now c p]).length ≥ total
      · rw [if_pos hl] at h
        rcases List.mem_append.mp h with h2 | h2
        · exact Or.inl h2
        · right; rw [List.mem_singleton.mp h2]; rfl
      · rw [if_neg hl] at h
        rcases ih _ _ s h with h2 | h2
        · rcases List.mem_append.mp h2 with h3 | h3
          · exact Or.inl h3
          · right; rw [List.mem_singleton.mp h3]; rfl
        · exact Or.inr h2

theorem topUpGo_len_le (now total : Nat) (known : List String) :
    ∀ (pool : List String) (acc : List Scenario) (c : Nat),
      acc.length < total → (topUpGo now total known pool (acc, c)).1.length ≤ total := by
  intro pool
  induction pool with
  | nil => intro acc c h; exact Nat.le_of_lt h
  | cons p ps ih =>
    intro acc c h
    rw [topUpGo_cons]
    cases hk : known.contains p with
    | true => simp only [if_true]; exact ih acc c h
    | false =>
      simp only [Bool.false_eq_true, if_false]
      by_cases hl : (acc ++ [mkDefault now c p]).length ≥ total
      · rw [if_pos hl]; simpa using h
      · rw [if_neg hl]; exact ih _ _ (by omega)

theorem topUpGo_len_ge (now total : Nat) (known : List String) :
    ∀ (pool : List String) (acc : List Scenario) (c : Nat),
      acc.length ≤ (topUpGo now total known pool (acc, c)).1.length := by
  intro pool
  induction pool with
  | nil => intro acc c; exact Nat.le_refl _
  | cons p ps ih =>
    intro acc c
    rw [topUpGo_cons]
    cases hk : known.contains p with
    | true => simp only [if_true]; exact ih acc c
    | false =>
      simp only [Bool.false_eq_true, if_false]
      by_cases hl : (acc ++ [mkDefault now c p]).length ≥ total
      · rw [if_pos hl]; simp
      · rw [if_neg hl]
        calc acc.length ≤ (acc ++ [mkDefault now c p]).length := by simp
          _ ≤ _ := ih _ _

/-- Unfolding equation for the successor case of the filler loop. -/
theorem fillGo_succ (now total fuel : Nat) (acc : List Scenario) (c : Nat) :
    fillGo now total (fuel + 1) (acc, c) =
      (if acc.length < total then
        fillGo now total fuel
          (acc ++ [mkDefault now c ("Unknown Scenario " ++ toString (c + 1))], c + 1)
      else (acc, c)) := rfl

theorem fillGo_mem (now total : Nat) :
    ∀ (fuel : Nat) (acc : List Scenario) (c : Nat) (s : Scenario),
      s ∈ (fillGo now total fuel (acc, c)).1 →
        s ∈ acc ∨ (s.status = .passed ∧
          s.name = "Unknown Scenario " ++ toString (s.id + 1)) := by
  intro fuel
  induction fuel with
  | zero => intro acc c s h; exact Or.inl h
  | succ fuel ih =>
    intro acc c s h
    rw [fillGo_succ] at h
    by_cases hl : acc.length < total
    · rw [if_pos hl] at h
      rcases ih _ _ s h with h2 | h2
      · rcases List.mem_append.mp h2 with h3 | h3
        · exact Or.inl h3
        · right; rw [List.mem_singleton.mp h3]; exact ⟨rfl, rfl⟩
      · exact Or.inr h2
    · rw [if_neg hl] at h; exact Or.inl h

theorem fillGo_len_le (now total : Nat) :
    ∀ (fuel : Nat) (acc : List Scenario) (c : Nat),
      (fillGo now total fuel (acc, c)).1.length ≤ max total acc.length := by
  intro fuel
  induction fuel with
  | zero => intro acc c; exact Nat.le_max_right _ _
  | succ fuel ih =>
    intro acc c
    rw [fillGo_succ]
    by_cases hl : acc.length < total
    · rw [if_pos hl]
      calc (fillGo now total fuel (_, c + 1)).1.length
          ≤ max total (acc ++ [mkDefault now c _]).length := ih _ _
        _ ≤ max total acc.length := by simp; omega
    · rw [if_neg hl]; exact Nat.le_max_right _ _

theorem fillGo_len_ge (now total : Nat) :
    ∀ (fuel : Nat) (acc : List Scenario) (c : Nat),
      acc.length ≤ (fillGo now total fuel (acc, c)).1.length := by
  intro fuel
  induction fuel with
  | zero => intro acc c; exact Nat.le_refl _
  | succ fuel ih =>
    intro acc c
    rw [fillGo_succ]
    by_cases hl : acc.length < total
    · rw [if_pos hl]
      calc acc.length ≤ (acc ++ [mkDefault now c _]).length := by simp
        _ ≤ _ := ih _ _
    · rw [if_neg hl]

/-- Unfolding equation of the reconciliation block when a total is
declared. -/
theorem riReconcile_some (now : Nat) (log : List Char) (scens : List Scenario)
    (c0 t : Nat) (hpt : parseTotal log = some t) :
    riReconcile now log scens c0 =
      (if scens.length < t then
        (fillGo now t t
          (topUpGo now t (scens.map (fun s => s.name)) pool4 (scens, c0))).1
      else scens) := by
  unfold riReconcile; rw [hpt]

/-- Unfolding equation of the reconciliation block without a declared
total. -/
theorem riReconcile_none (now : Nat) (log : List Char) (scens : List Scenario)
    (c0 : Nat) (hpt : parseTotal log = none) :
    riReconcile now log scens c0 = scens := by
  unfold riReconcile; rw [hpt]

theorem riReconcile_mem (now : Nat) (log : List Char) (scens : List Scenario)
    (c0 : Nat) (s : Scenario) (h : s ∈ riReconcile now log scens c0) :
    s ∈ scens ∨ s.status = .passed := by
  cases hpt : parseTotal log with
  | none => rw [riReconcile_none now log scens c0 hpt] at h; exact Or.inl h
  | some t =>
    rw [riReconcile_some now log scens c0 t hpt] at h
    by_cases hl : scens.length < t
    · rw [if_pos hl] at h
      rcases htu : topUpGo now t (scens.map (fun s => s.name)) pool4 (scens, c0)
        with ⟨acc1, c1⟩
      rw [htu] at h
      rcases fillGo_mem now t t acc1 c1 s h with h2 | h2
      · rcases topUpGo_mem now t _ pool4 scens c0 s (by rw [htu]; exact h2) with h3 | h3
        · exact Or.inl h3
        · exact Or.inr h3
      · exact Or.inr h2.1
    · rw [if_neg hl] at h; exact Or.inl h

theorem riReconcile_len_le (now : Nat) (log : List Char) (scens : List Scenario)
    (c0 : Nat) :
    (riReconcile now log scens c0).length ≤
      max ((parseTotal log).getD 0) scens.length := by
  cases hpt : parseTotal log with
  | none => rw [riReconcile_none now log scens c0 hpt]; simp
  | some t =>
    rw [riReconcile_some now log scens c0 t hpt]
    by_cases hl : scens.length < t
    · rw [if_pos hl]
      rcases htu : topUpGo now t (scens.map (fun s => s.name)) pool4 (scens, c0)
        with ⟨acc1, c1⟩
      rw [htu]
      have h1 : acc1.length ≤ t := by
        have h0 := topUpGo_len_le now t (scens.map (fun s => s.name)) pool4 scens c0 hl
        rw [htu] at h0; exact h0
      have h2 := fillGo_len_le now t t acc1 c1
      simp only [Option.getD_some]
      omega
    · rw [if_neg hl]; exact Nat.le_max_right _ _

theorem riReconcile_len_ge (now : Nat) (log : List Char) (scens : List Scenario)
    (c0 : Nat) :
    scens.length ≤ (riReconcile now log scens c0).length := by
  cases hpt : parseTotal log with
  | none => rw [riReconcile_none now log scens c0 hpt]
  | some t =>
    rw [riReconcile_some now log scens c0 t hpt]
    by_cases hl : scens.length < t
    · rw [if_pos hl]
      rcases htu : topUpGo now t (scens.map (fun s => s.name)) pool4 (scens, c0)
        with ⟨acc1, c1⟩
      rw [htu]
      have h0 := topUpGo_len_ge now t (scens.map (fun s => s.name)) pool4 scens c0
      rw [htu] at h0
      have h1 : scens.length ≤ acc1.length := h0
      have h2 := fillGo_len_ge now t t acc1 c1
      omega
    · rw [if_neg hl]

theorem riReconcile_status (now : Nat) (log : List Char) (scens : List Scenario)
    (c0 : Nat) (hs : ∀ s ∈ scens, s.status ≠ .running) :
    ∀ s ∈ riReconcile now log scens c0, s.status ≠ .running := by
  intro s h
  rcases riReconcile_mem now log scens c0 s h with h2 | h2
  · exact hs s h2
  · rw [h2]; decide

/-- Unfolding equation for the reconciliation variant with the `let`s
resolved. -/
theorem riPrepare_eq (now : Nat) (logS : String) :
    riPrepareScenarioResults now logS =
      (if !(lcontains logS.toList "Scenario".toList) &&
          (parseTotal logS.toList).isNone then
        .ok (createDefaultScenarios4 now)
      else
        match buildNamed now logS.toList (scenarioNamesOf logS.toList) 1 with
        | .error e => .error e
        | .ok (scens, c0) =>
          if (riReconcile now logS.toList scens c0).isEmpty then
            .ok (createDefaultScenarios4 now)
          else .ok (riReconcile now logS.toList scens c0)) := rfl

/-- The reconciliation variant on the no-vocabulary guard. -/
theorem riPrepare_eq_guard (now : Nat) (logS : String)
    (hg : (!(lcontains logS.toList "Scenario".toList) &&
      (parseTotal logS.toList).isNone) = true) :
    riPrepareScenarioResults now logS = .ok (createDefaultScenarios4 now) := by
  rw [riPrepare_eq, hg]; simp

/-- The reconciliation variant in the main path, given the outcome of the
per-name loop. -/
theorem riPrepare_eq_ok (now : Nat) (logS : String) (scens : List Scenario)
    (c0 : Nat)
    (hg : (!(lcontains logS.toList "Scenario".toList) &&
      (parseTotal logS.toList).isNone) = false)
    (hb : buildNamed now logS.toList (scenarioNamesOf logS.toList) 1 =
      .ok (scens, c0)) :
    riPrepareScenarioResults now logS =
      (if (riReconcile now logS.toList scens c0).isEmpty then
        .ok (createDefaultScenarios4 now)
      else .ok (riReconcile now logS.toList scens c0)) := by
  rw [riPrepare_eq, hg, hb]
  simp

/-- The reconciliation variant in the exceptional path. -/
theorem riPrepare_eq_error (now : Nat) (logS : String) (e : String)
    (hg : (!(lcontains logS.toList "Scenario".toList) &&
      (parseTotal logS.toList).isNone) = false)
    (hb : buildNamed now logS.toList (scenarioNamesOf logS.toList) 1 =
      .error e) :
    riPrepareScenarioResults now logS = .error e := by
  rw [riPrepare_eq, hg, hb]
  simp

theorem riPrepare_ok_status (now : Nat) (logS : String) (ss : List Scenario)
    (h : riPrepareScenarioResults now logS = .ok ss) :
    ∀ s ∈ ss, s.status ≠ .running := by
  cases hg : (!(lcontains logS.toList "Scenario".toList) &&
      (parseTotal logS.toList).isNone) with
  | true =>
    rw [riPrepare_eq_guard now logS hg] at h
    simp only [Except.ok.injEq] at h
    subst h
    intro s hs
    rw [mem_defaults4_status now s hs]; decide
  | false =>
    cases hb : buildNamed now logS.toList (scenarioNamesOf logS.toList) 1 with
    | error e =>
      rw [riPrepare_eq_error now logS e hg hb] at h; simp at h
    | ok p =>
      obtain ⟨scens, c0⟩ := p
      rw [riPrepare_eq_ok now logS scens c0 hg hb] at h
      by_cases he : (riReconcile now logS.toList scens c0).isEmpty
      · rw [if_pos he] at h
        simp only [Except.ok.injEq] at h
        subst h
        intro s hs
        rw [mem_defaults4_status now s hs]; decide
      · rw [if_neg he] at h
        simp only [Except.ok.injEq] at h
        subst h
        exact riReconcile_status now logS.toList scens c0
          (buildNamed_ok_status now logS.toList _ 1 scens c0 hb)

theorem riPrepare_ok_ne_nil (now : Nat) (logS : String) (ss : List Scenario)
    (h : riPrepareScenarioResults now logS = .ok ss) : ss ≠ [] := by
  cases hg : (!(lcontains logS.toList "Scenario".toList) &&
      (parseTotal logS.toList).isNone) with
  | true =>
    rw [riPrepare_eq_guard now logS hg] at h
    simp only [Except.ok.injEq] at h
    subst h
    simp [createDefaultScenarios4]
  | false =>
    cases hb : buildNamed now logS.toList (scenarioNamesOf logS.toList) 1 with
    | error e =>
      rw [riPrepare_eq_error now logS e hg hb] at h; simp at h
    | ok p =>
      obtain ⟨scens, c0⟩ := p
      rw [riPrepare_eq_ok now logS scens c0 hg hb] at h
      by_cases he : (riReconcile now logS.toList scens c0).isEmpty
      · rw [if_pos he] at h
        simp only [Except.ok.injEq] at h
        subst h
        simp [createDefaultScenarios4]
      · rw [if_neg he] at h
        simp only [Except.ok.injEq] at h
        subst h
        simpa [List.isEmpty_iff] using he

/-! ## Summary bookkeeping -/

theorem foldl_addScenario_eq :
    ∀ (l : List Scenario) (sm : Summary),
      (∀ s ∈ l, s.status ≠ .running) →
      sm.total = sm.passed + sm.failed + sm.warning →
      (l.foldl addScenario sm).total =
        (l.foldl addScenario sm).passed + (l.foldl addScenario sm).failed +
          (l.foldl addScenario sm).warning := by
  intro l
  induction l with
  | nil => intro sm _ h; simpa using h
  | cons s t ih =>
    intro sm hall h
    rw [List.foldl_cons]
    refine ih _ (fun x hx => hall x (List.mem_cons_of_mem _ hx)) ?_
    have hs := hall s (List.mem_cons_self _ _)
    cases hst : s.status with
    | running => exact absurd hst hs
    | passed => simp [addScenario, hst]; omega
    | failed => simp [addScenario, hst]; omega
    | warning => simp [addScenario, hst]; omega

/-! ## Invariants of the state-machine variant -/

theorem shinyWarnCheck_fg (line : List Char) (c : Scenario)
    (h : failedGeneric c) : failedGeneric (shinyWarnCheck line c) := by
  unfold shinyWarnCheck
  split
  · split
    · intro hf; simp at hf
    · intro hf; exact h hf
  · exact h

theorem shinyFailedCheck_fg (now : Nat) (line : List Char) (c : Scenario)
    (h : failedGeneric c) : failedGeneric (shinyFailedCheck now line c) := by
  unfold shinyFailedCheck
  split
  · split
    · intro _; exact ⟨rfl, rfl⟩
    · exact shinyWarnCheck_fg line c h
  · exact shinyWarnCheck_fg line c h

theorem shinyLineRest_fg (now : Nat) (line : List Char) (c : Scenario)
    (h : failedGeneric c) : failedGeneric (shinyLineRest now line c) := by
  unfold shinyLineRest
  split
  · split
    · intro hf; simp at hf
    · exact shinyFailedCheck_fg now line c h
  · exact shinyFailedCheck_fg now line c h

theorem shinyStep_fg (now : Nat) (st : ShinyState) (line : List Char)
    (h : scenInv failedGeneric st) : scenInv failedGeneric (shinyStep now st line) := by
  obtain ⟨h1, h2⟩ := h
  unfold shinyStep
  cases hls : lineStartMatch line with
  | some nm =>
    refine ⟨?_, ?_⟩
    · intro s hs
      cases hc : st.current with
      | none => rw [hc] at hs; exact h1 s hs
      | some cur =>
        rw [hc] at hs
        rcases List.mem_append.mp hs with h3 | h3
        · exact h1 s h3
        · rw [List.mem_singleton.mp h3]; exact h2 cur hc
    · intro c hc
      simp only [Option.some.injEq] at hc
      rw [← hc]
      intro hf
      simp at hf
  | none =>
    cases hc : st.current with
    | none => exact ⟨h1, fun c h3 => h2 c (hc ▸ h3)⟩
    | some cur =>
      refine ⟨h1, ?_⟩
      intro c h3
      simp only [Option.some.injEq] at h3
      rw [← h3]
      exact shinyLineRest_fg now line cur (h2 cur hc)

theorem shinyFold_fg (now : Nat) :
    ∀ (lines : List (List Char)) (st : ShinyState),
      scenInv failedGeneric st →
      scenInv failedGeneric (lines.foldl (shinyStep now) st) := by
  intro lines
  induction lines with
  | nil => intro st h; exact h
  | cons line rest ih =>
    intro st h
    rw [List.foldl_cons]
    exact ih _ (shinyStep_fg now st line h)

theorem resolveCurrent_fg (now : Nat) (c : Scenario) (h : failedGeneric c) :
    failedGeneric (resolveCurrent now c) := by
  unfold resolveCurrent
  by_cases hr : c.status = .running
  · rw [if_pos hr]
    intro hf
    simp at hf
  · rw [if_neg hr]
    exact h

theorem resolveCurrent_not_running (now : Nat) (c : Scenario) :
    (resolveCurrent now c).status ≠ .running := by
  unfold resolveCurrent
  by_cases hr : c.status = .running
  · rw [if_pos hr]
    intro hf
    simp at hf
  · rw [if_neg hr]
    exact hr

theorem shinyStep_inv_none (now : Nat) (st : ShinyState) (line : List Char)
    (h : st.current = none → st.scenarios = []) :
    (shinyStep now st line).current = none →
      (shinyStep now st line).scenarios = [] := by
  unfold shinyStep
  cases hls : lineStartMatch line with
  | some nm => intro h2; simp at h2
  | none =>
    cases hc : st.current with
    | none => intro _; exact h hc
    | some cur => intro h2; simp at h2

theorem shinyFold_inv_none (now : Nat) :
    ∀ (lines : List (List Char)) (st : ShinyState),
      (st.current = none → st.scenarios = []) →
      ((lines.foldl (shinyStep now) st).current = none →
        (lines.foldl (shinyStep now) st).scenarios = []) := by
  intro lines
  induction lines with
  | nil => intro st h; exact h
  | cons line rest ih =>
    intro st h
    rw [List.foldl_cons]
    exact ih _ (shinyStep_inv_none now st line h)

/-! ## Wall-clock independence (for the idempotence claim) -/

theorem map_isEmpty {α β : Type} (f : α → β) (l : List α) :
    (l.map f).isEmpty = l.isEmpty := by cases l <;> rfl

theorem riBuild_setTimes (now : Nat) (log : List Char) (c : Nat) (n : String) :
    riBuild now log c n = setTimes now (riBuild 0 log c n) := rfl

theorem defaults4_setTimes (now : Nat) :
    createDefaultScenarios4 now = (createDefaultScenarios4 0).map (setTimes now) := rfl

theorem defaults3_setTimes (now : Nat) :
    createDefaultScenarios3 now = (createDefaultScenarios3 0).map (setTimes now) := rfl

theorem buildNamed_setTimes (now : Nat) (log : List Char) :
    ∀ (ns : List String) (c : Nat),
      buildNamed now log ns c =
        (buildNamed 0 log ns c).map (fun p => (p.1.map (setTimes now), p.2)) := by
  intro ns
  induction ns with
  | nil => intro c; rfl
  | cons n ns ih =>
    intro c
    rw [buildNamed_cons, buildNamed_cons]
    cases hs : regexSafeName n.toList with
    | false => rfl
    | true =>
      simp only [if_true]
      rw [ih (c + 1)]
      cases hrec : buildNamed 0 log ns (c + 1) with
      | error e => rfl
      | ok p =>
        obtain ⟨rest, cf⟩ := p
        simp only [Except.map]
        rw [riBuild_setTimes now log c n]
        rfl

theorem topUpGo_setTimes (now total : Nat) (known : List String) :
    ∀ (pool : List String) (acc : List Scenario) (c : Nat),
      topUpGo now total known pool (acc.map (setTimes now), c) =
        ((topUpGo 0 total known pool (acc, c)).1.map (setTimes now),
         (topUpGo 0 total known pool (acc, c)).2) := by
  intro pool
  induction pool with
  | nil => intro acc c; rfl
  | cons p ps ih =>
    intro acc c
    rw [topUpGo_cons, topUpGo_cons]
    cases hk : known.contains p with
    | true => simp only [if_true]; exact ih acc c
    | false =>
      simp only [Bool.false_eq_true, if_false]
      have hlen : (acc.map (setTimes now) ++ [mkDefault now c p]).length =
          (acc ++ [mkDefault 0 c p]).length := by simp
      by_cases hl : (acc ++ [mkDefault 0 c p]).length ≥ total
      · rw [if_pos hl, if_pos (hlen ▸ hl)]
        simp [setTimes_mkDefault]
      · rw [if_neg hl, if_neg (fun hx => hl (hlen ▸ hx))]
        have h2 : acc.map (setTimes now) ++ [mkDefault now c p] =
            (acc ++ [mkDefault 0 c p]).map (setTimes now) := by
          simp [setTimes_mkDefault]
        rw [h2]
        exact ih (acc ++ [mkDefault 0 c p]) (c + 1)

theorem fillGo_setTimes (now total : Nat) :
    ∀ (fuel : Nat) (acc : List Scenario) (c : Nat),
      fillGo now total fuel (acc.map (setTimes now), c) =
        ((fillGo 0 total fuel (acc, c)).1.map (setTimes now),
         (fillGo 0 total fuel (acc, c)).2) := by
  intro fuel
  induction fuel with
  | zero => intro acc c; rfl
  | succ fuel ih =>
    intro acc c
    rw [fillGo_succ, fillGo_succ]
    have hlen : (acc.map (setTimes now)).length = acc.length := by simp
    by_cases hl : acc.length < total
    · rw [if_pos hl, if_pos (hlen ▸ hl)]
      have h2 : acc.map (setTimes now) ++
            [mkDefault now c ("Unknown Scenario " ++ toString (c + 1))] =
          (acc ++ [mkDefault 0 c ("Unknown Scenario " ++ toString (c + 1))]).map
            (setTimes now) := by
        simp [setTimes_mkDefault]
      rw [h2]
      exact ih _ (c + 1)
    · rw [if_neg hl, if_neg (fun hx => hl (hlen ▸ hx))]

theorem riReconcile_setTimes (now : Nat) (log : List Char)
    (scens : List Scenario) (c0 : Nat) :
    riReconcile now log (scens.map (setTimes now)) c0 =
      (riReconcile 0 log scens c0).map (setTimes now) := by
  cases hpt : parseTotal log with
  | none => rw [riReconcile_none now log _ c0 hpt, riReconcile_none 0 log scens c0 hpt]
  | some t =>
    rw [riReconcile_some now log _ c0 t hpt, riReconcile_some 0 log scens c0 t hpt]
    have hlen : (scens.map (setTimes now)).length = scens.length := by simp
    have hnames : (scens.map (setTimes now)).map (fun s => s.name) =
        scens.map (fun s => s.name) := by
      simp only [List.map_map]; rfl
    by_cases hl : scens.length < t
    · rw [if_pos hl, if_pos (hlen ▸ hl), hnames]
      rcases htu : topUpGo 0 t (scens.map (fun s => s.name)) pool4 (scens, c0)
        with ⟨acc1, c1⟩
      have h2 := topUpGo_setTimes now t (scens.map (fun s => s.name)) pool4 scens c0
      rw [htu] at h2
      rw [h2]
      have h3 := fillGo_setTimes now t t acc1 c1
      rw [htu, h3]
    · rw [if_neg hl, if_neg (fun hx => hl (hlen ▸ hx))]

theorem riPrepare_setTimes (now : Nat) (logS : String) :
    riPrepareScenarioResults now logS =
      (riPrepareScenarioResults 0 logS).map (List.map (setTimes now)) := by
  cases hg : (!(lcontains logS.toList "Scenario".toList) &&
      (parseTotal logS.toList).isNone) with
  | true =>
    rw [riPrepare_eq_guard now logS hg, riPrepare_eq_guard 0 logS hg]
    simp only [Except.map]
    rw [← defaults4_setTimes]
  | false =>
    cases hb : buildNamed 0 logS.toList (scenarioNamesOf logS.toList) 1 with
    | error e =>
      have hbn : buildNamed now logS.toList (scenarioNamesOf logS.toList) 1 =
          .error e := by
        rw [buildNamed_setTimes now logS.toList _ 1, hb]; rfl
      rw [riPrepare_eq_error now logS e hg hbn, riPrepare_eq_error 0 logS e hg hb]
      rfl
    | ok p =>
      obtain ⟨scens, c0⟩ := p
      have hbn : buildNamed now logS.toList (scenarioNamesOf logS.toList) 1 =
          .ok (scens.map (setTimes now), c0) := by
        rw [buildNamed_setTimes now logS.toList _ 1, hb]; rfl
      rw [riPrepare_eq_ok now logS _ c0 hg hbn, riPrepare_eq_ok 0 logS scens c0 hg hb]
      rw [riReconcile_setTimes now logS.toList scens c0]
      rw [map_isEmpty]
      by_cases he : (riReconcile 0 logS.toList scens c0).isEmpty
      · rw [if_pos he, if_pos he]
        simp only [Except.map]
        rw [← defaults4_setTimes]
      · rw [if_neg he, if_neg he]
        rfl

@[simp] theorem correlate_setTimes (nm line : List Char) (now : Nat) (c : Scenario) :
    correlate nm line (setTimes now c) = correlate nm line c := rfl

theorem shinyWarnCheck_setTimes (now : Nat) (line : List Char) (c : Scenario) :
    shinyWarnCheck line (setTimes now c) = setTimes now (shinyWarnCheck line c) := by
  unfold shinyWarnCheck
  simp only [setTimes_status, setTimes_warnings]
  split
  · by_cases hr : c.status = Status.running
    · rw [if_pos hr, if_pos hr]; rfl
    · rw [if_neg hr, if_neg hr]; rfl
  · rfl

theorem shinyFailedCheck_setTimes (now : Nat) (line : List Char) (c : Scenario) :
    shinyFailedCheck now line (setTimes now c) =
      setTimes now (shinyFailedCheck 0 line c) := by
  unfold shinyFailedCheck
  simp only [correlate_setTimes]
  split
  · next cap heq =>
    by_cases hc : correlate (trimL cap) line c = true
    · rw [if_pos hc, if_pos hc]; rfl
    · rw [if_neg hc, if_neg hc]
      exact shinyWarnCheck_setTimes now line c
  · exact shinyWarnCheck_setTimes now line c

theorem shinyLineRest_setTimes (now : Nat) (line : List Char) (c : Scenario) :
    shinyLineRest now line (setTimes now c) =
      setTimes now (shinyLineRest 0 line c) := by
  unfold shinyLineRest
  simp only [correlate_setTimes]
  split
  · next cap heq =>
    by_cases hc : correlate (trimL cap) line c = true
    · rw [if_pos hc, if_pos hc]; rfl
    · rw [if_neg hc, if_neg hc]
      exact shinyFailedCheck_setTimes now line c
  · exact shinyFailedCheck_setTimes now line c

theorem shinyStep_setTimes (now : Nat) (st : ShinyState) (line : List Char) :
    shinyStep now (setTimesState now st) line =
      setTimesState now (shinyStep 0 st line) := by
  rcases st with ⟨scens, cur, ctr⟩
  unfold shinyStep
  cases hls : lineStartMatch line with
  | some nm =>
    cases cur with
    | none => rfl
    | some c => simp [setTimesState, setTimes]
  | none =>
    cases cur with
    | none => rfl
    | some c =>
      simp only [setTimesState, Option.map_some']
      rw [shinyLineRest_setTimes now line c]

theorem shinyFold_setTimes (now : Nat) :
    ∀ (lines : List (List Char)) (st : ShinyState),
      lines.foldl (shinyStep now) (setTimesState now st) =
        setTimesState now (lines.foldl (shinyStep 0) st) := by
  intro lines
  induction lines with
  | nil => intro st; rfl
  | cons line rest ih =>
    intro st
    rw [List.foldl_cons, List.foldl_cons, shinyStep_setTimes now st line]
    exact ih _

theorem resolveCurrent_setTimes (now : Nat) (c : Scenario) :
    resolveCurrent now (setTimes now c) = setTimes now (resolveCurrent 0 c) := by
  rcases c with ⟨cid, cname, cstatus, cst, cet, cdur, cerr, cwarn⟩
  unfold resolveCurrent
  by_cases hr : cstatus = Status.running
  · subst hr; rfl
  · simp only [setTimes]
    rw [if_neg hr, if_neg hr]

theorem shinyAssemble_setTimes (now : Nat) (fin : ShinyState) :
    shinyAssemble now (setTimesState now fin) =
      (shinyAssemble 0 fin).map (setTimes now) := by
  rcases fin with ⟨fscens, fcur, fctr⟩
  unfold shinyAssemble
  cases fcur with
  | none =>
    simp only [setTimesState, Option.map_none']
    rw [map_isEmpty]
    by_cases he : fscens.isEmpty
    · rw [if_pos he, if_pos he, ← defaults3_setTimes]
    · rw [if_neg he, if_neg he]
  | some c =>
    simp only [setTimesState, Option.map_some']
    rw [resolveCurrent_setTimes now c]
    have hne : (fscens.map (setTimes now) ++
        [setTimes now (resolveCurrent 0 c)]).isEmpty = false := by
      simp [List.isEmpty_iff]
    have hne2 : (fscens ++ [resolveCurrent 0 c]).isEmpty = false := by
      simp [List.isEmpty_iff]
    rw [hne, hne2]
    simp

theorem shinyPrepare_setTimes (now : Nat) (logS : String) :
    shinyPrepareScenarioResults now logS =
      (shinyPrepareScenarioResults 0 logS).map (setTimes now) := by
  unfold shinyPrepareScenarioResults
  by_cases h1 : logS.toList.isEmpty
  · rw [if_pos h1, if_pos h1, ← defaults3_setTimes]
  · rw [if_neg h1, if_neg h1]
    by_cases h2 : logS.toList.length < 300
    · rw [if_pos h2, if_pos h2, ← defaults3_setTimes]
    · rw [if_neg h2, if_neg h2]
      by_cases h3 : ((scanAllStart (logS.toList.length + 1) logS.toList).map
          (fun l => String.mk (trimL l))).isEmpty
      · rw [if_pos h3, if_pos h3, ← defaults3_setTimes]
      · rw [if_neg h3, if_neg h3]
        have hfold : (splitNl logS.toList).foldl (shinyStep now) ⟨[], none, 1⟩ =
            setTimesState now ((splitNl logS.toList).foldl (shinyStep 0) ⟨[], none, 1⟩) := by
          have h0 : (⟨[], none, 1⟩ : ShinyState) = setTimesState now ⟨[], none, 1⟩ := rfl
          rw [h0, shinyFold_setTimes]
          rw [← h0, h0]
        rw [hfold, shinyAssemble_setTimes]

/-! ## Assembly lemmas for the state-machine variant -/

/-- Unfolding equation of the state-machine variant with the `let`s
resolved. -/
theorem shinyPrepare_eq (now : Nat) (logS : String) :
    shinyPrepareScenarioResults now logS =
      (if logS.toList.isEmpty then createDefaultScenarios3 now
      else if logS.toList.length < 300 then createDefaultScenarios3 now
      else if ((scanAllStart (logS.toList.length + 1) logS.toList).map
          (fun l => String.mk (trimL l))).isEmpty then createDefaultScenarios3 now
      else shinyAssemble now
        ((splitNl logS.toList).foldl (shinyStep now) ⟨[], none, 1⟩)) := rfl

theorem defaults3_last (now : Nat) (s : Scenario)
    (h : (createDefaultScenarios3 now).getLast? = some s) : s.status ≠ .running := by
  have h2 : (createDefaultScenarios3 now).getLast? =
      some (mkDefault now 3 "Responsiveness Test") := rfl
  rw [h2] at h
  simp only [Option.some.injEq] at h
  rw [← h]
  intro hf
  simp [mkDefault] at hf

theorem shinyAssemble_last (now : Nat) (fin : ShinyState)
    (hinv : fin.current = none → fin.scenarios = []) (s : Scenario)
    (h : (shinyAssemble now fin).getLast? = some s) : s.status ≠ .running := by
  unfold shinyAssemble at h
  split at h
  · next c heq =>
    by_cases he : (fin.scenarios ++ [resolveCurrent now c]).isEmpty
    · rw [if_pos he] at h
      exact defaults3_last now s h
    · rw [if_neg he] at h
      rw [List.getLast?_concat] at h
      simp only [Option.some.injEq] at h
      rw [← h]
      exact resolveCurrent_not_running now c
  · next heq =>
    rw [hinv heq] at h
    exact defaults3_last now s h

theorem defaults3_fg (now : Nat) (s : Scenario)
    (h : s ∈ createDefaultScenarios3 now) : failedGeneric s := by
  intro hf
  rw [mem_defaults3_status now s h] at hf
  cases hf

theorem shinyAssemble_fg (now : Nat) (fin : ShinyState)
    (hinv : scenInv failedGeneric fin) (s : Scenario)
    (h : s ∈ shinyAssemble now fin) : failedGeneric s := by
  obtain ⟨h1, h2⟩ := hinv
  unfold shinyAssemble at h
  split at h
  · next c heq =>
    by_cases he : (fin.scenarios ++ [resolveCurrent now c]).isEmpty
    · rw [if_pos he] at h
      exact defaults3_fg now s h
    · rw [if_neg he] at h
      rcases List.mem_append.mp h with h3 | h3
      · exact h1 s h3
      · rw [List.mem_singleton.mp h3]
        exact resolveCurrent_fg now c (h2 c heq)
  · next heq =>
    by_cases he : fin.scenarios.isEmpty
    · rw [if_pos he] at h
      exact defaults3_fg now s h
    · rw [if_neg he] at h
      exact h1 s h

theorem shinyPrepare_fg (now : Nat) (logS : String) (s : Scenario)
    (h : s ∈ shinyPrepareScenarioResults now logS) : failedGeneric s := by
  rw [shinyPrepare_eq] at h
  by_cases h1 : logS.toList.isEmpty
  · rw [if_pos h1] at h; exact defaults3_fg now s h
  · rw [if_neg h1] at h
    by_cases h2 : logS.toList.length < 300
    · rw [if_pos h2] at h; exact defaults3_fg now s h
    · rw [if_neg h2] at h
      by_cases h3 : ((scanAllStart (logS.toList.length + 1) logS.toList).map
          (fun l => String.mk (trimL l))).isEmpty
      · rw [if_pos h3] at h; exact defaults3_fg now s h
      · rw [if_neg h3] at h
        refine shinyAssemble_fg now _ ?_ s h
        exact shinyFold_fg now (splitNl logS.toList) ⟨[], none, 1⟩
          ⟨fun x hx => absurd hx (List.not_mem_nil x), fun c hc => by cases hc⟩

/-! ## Claims -/

set_option maxRecDepth 40000

/-- **C1** (counterexample): the claim says no entry of the final list of the
state-machine `prepareScenarioResults` has status running, resolving a
scenario still open when the next Start arrives to Passed.  On `c1log` the
scenario `Alpha` is still open when `Running scenario: Beta` arrives and is
appended with status running unchanged, so the first entry of the result has
status running, outside {passed, failed, warning}. -/
theorem c1_running_leaks_counterexample :
    (shinyPrepareScenarioResults 0 c1log).map (fun s => s.status) =
      [Status.running, Status.passed] ∧
    Status.running ∉ [Status.passed, Status.failed, Status.warning] :=
  ⟨rfl, by decide⟩

/-- **C1** (amended): only the scenario still open at end of input is resolved
to Passed; a scenario interrupted by a later Start is appended with its status
unchanged (possibly running).  Consequently the *last* element of the returned
list never has status running, while earlier elements may. -/
theorem c1_last_element_never_running (now : Nat) (logS : String) (s : Scenario)
    (h : (shinyPrepareScenarioResults now logS).getLast? = some s) :
    s.status ≠ .running := by
  rw [shinyPrepare_eq] at h
  by_cases h1 : logS.toList.isEmpty
  · rw [if_pos h1] at h; exact defaults3_last now s h
  · rw [if_neg h1] at h
    by_cases h2 : logS.toList.length < 300
    · rw [if_pos h2] at h; exact defaults3_last now s h
    · rw [if_neg h2] at h
      by_cases h3 : ((scanAllStart (logS.toList.length + 1) logS.toList).map
          (fun l => String.mk (trimL l))).isEmpty
      · rw [if_pos h3] at h; exact defaults3_last now s h
      · rw [if_neg h3] at h
        exact shinyAssemble_last now _
          (shinyFold_inv_none now (splitNl logS.toList) ⟨[], none, 1⟩
            (fun _ => rfl)) s h

/-- **C1** (witness): the amended theorem applied to `c1log`, whose last
entry is `Beta`, resolved to passed at end of input. -/
theorem c1_last_element_never_running_witness :
    ({ id := 2, name := "Beta", status := .passed, startTime := 0,
       endTime := some 0, duration := some 5000, error := none,
       warnings := [] } : Scenario).status ≠ .running :=
  c1_last_element_never_running 0 c1log _ rfl

/-- **C2**: on the spec's concrete log, `report-integration.js`'s
`prepareScenarioResults` returns exactly four scenarios: Tab Navigation
passed, Dashboard Controls failed with error `timeout`, then two entries
filled from the canonical pool, with ids 1, 2, 3, 4 in order. -/
theorem c2_concrete_log_result :
    riPrepareScenarioResults 0 c2log = .ok c2Expected ∧
    c2Expected.map nsiProj =
      [("Tab Navigation", Status.passed, 1),
       ("Dashboard Controls", Status.failed, 2),
       ("Navigate Dashboard Tabs", Status.passed, 3),
       ("Test Dashboard Input Controls", Status.passed, 4)] ∧
    c2Expected.map (fun s => s.error) = [none, some "timeout", none, none] ∧
    pool4.contains "Navigate Dashboard Tabs" = true ∧
    pool4.contains "Test Dashboard Input Controls" = true :=
  ⟨rfl, rfl, rfl, rfl, rfl⟩

/-- **C3**: for every log accepted by the reconciliation variant, folding the
returned scenarios through `TestReportGenerator.addScenario` yields a summary
with `total = passed + failed + warning` (every returned status is one of the
three counted ones). -/
theorem c3_summary_total_eq (now : Nat) (logS : String) (ss : List Scenario)
    (h : riPrepareScenarioResults now logS = .ok ss) :
    (ss.foldl addScenario initialSummary).total =
      (ss.foldl addScenario initialSummary).passed +
      (ss.foldl addScenario initialSummary).failed +
      (ss.foldl addScenario initialSummary).warning :=
  foldl_addScenario_eq ss initialSummary (riPrepare_ok_status now logS ss h) rfl

/-- **C3** (witness): the summary equation at the empty log, whose scenarios
are the four defaults. -/
theorem c3_summary_total_eq_witness :
    ((createDefaultScenarios4 0).foldl addScenario initialSummary).total =
      ((createDefaultScenarios4 0).foldl addScenario initialSummary).passed +
      ((createDefaultScenarios4 0).foldl addScenario initialSummary).failed +
      ((createDefaultScenarios4 0).foldl addScenario initialSummary).warning :=
  c3_summary_total_eq 0 "" (createDefaultScenarios4 0) rfl

/-- **C4** (counterexample): the claim bounds the entry count by
`max(declaredTotal, reconstructedCount)` for *every* log.  On the empty log no
total is declared and no name is reconstructed, yet the function returns the
four-entry default pool, exceeding `max 0 0`. -/
theorem c4_default_exceeds_bound_counterexample :
    riPrepareScenarioResults 0 "" = .ok (createDefaultScenarios4 0) ∧
    (createDefaultScenarios4 0).length = 4 ∧
    parseTotal "".toList = none ∧
    scenarioNamesOf "".toList = [] ∧
    ¬((createDefaultScenarios4 0).length ≤
        max (declaredTotal "".toList) (scenarioNamesOf "".toList).length) :=
  ⟨rfl, rfl, rfl, rfl, by decide⟩

/-- **C4** (amended): the reconciliation variant never returns an empty list;
and whenever the log carries scenario vocabulary and at least one scenario
name is reconstructed, the returned count is at most
`max(declaredTotal, reconstructedCount)`.  When nothing is reconstructed the
function instead returns the fixed four-entry default pool. -/
theorem c4_reconciliation_bounds (now : Nat) (logS : String) (ss : List Scenario)
    (h : riPrepareScenarioResults now logS = .ok ss) :
    ss ≠ [] ∧
    (hasScenVocab logS.toList = true → scenarioNamesOf logS.toList ≠ [] →
      ss.length ≤ max (declaredTotal logS.toList)
        (scenarioNamesOf logS.toList).length) := by
  refine ⟨riPrepare_ok_ne_nil now logS ss h, ?_⟩
  intro hv hn
  have hg : (!(lcontains logS.toList "Scenario".toList) &&
      (parseTotal logS.toList).isNone) = false := by
    unfold hasScenVocab at hv
    rcases Bool.or_eq_true_iff.mp hv with h1 | h1
    · rw [h1]; rfl
    · simp [Option.isSome_iff_exists] at h1
      obtain ⟨t, hpt⟩ := h1
      simp [hpt]
  cases hb : buildNamed now logS.toList (scenarioNamesOf logS.toList) 1 with
  | error e =>
    rw [riPrepare_eq_error now logS e hg hb] at h
    simp at h
  | ok p =>
    obtain ⟨scens, c0⟩ := p
    have hlen := buildNamed_ok_length now logS.toList _ 1 scens c0 hb
    have hpos : 0 < scens.length := by
      rw [hlen]
      exact List.length_pos.mpr hn
    have hrge := riReconcile_len_ge now logS.toList scens c0
    have hne : (riReconcile now logS.toList scens c0).isEmpty = false := by
      rw [List.isEmpty_eq_false_iff_exists_mem]
      rcases List.exists_mem_of_length_pos (Nat.lt_of_lt_of_le hpos hrge) with ⟨x, hx⟩
      exact ⟨x, hx⟩
    rw [riPrepare_eq_ok now logS scens c0 hg hb, hne] at h
    simp only [Bool.false_eq_true, if_false, Except.ok.injEq] at h
    subst h
    calc (riReconcile now logS.toList scens c0).length
        ≤ max ((parseTotal logS.toList).getD 0) scens.length :=
          riReconcile_len_le now logS.toList scens c0
      _ = max (declaredTotal logS.toList) (scenarioNamesOf logS.toList).length := by
          rw [hlen]; rfl

/-- **C4** (witness): the amended bound at the spec's concrete log: four
entries against a declared total of 4 and two reconstructed names. -/
theorem c4_reconciliation_bounds_witness :
    c2Expected ≠ [] ∧
    c2Expected.length ≤ max (declaredTotal c2log.toList)
      (scenarioNamesOf c2log.toList).length :=
  ⟨(c4_reconciliation_bounds 0 c2log c2Expected rfl).1,
   (c4_reconciliation_bounds 0 c2log c2Expected rfl).2 rfl (by decide)⟩

/-- **C5** (code bug): the claim — and §7 of the spec — require the
scenario-preparation function never to throw, but on a log whose scenario
name contains an unbalanced parenthesis the unescaped interpolation
`new RegExp('Scenario "foo(" completed successfully')` throws a
`SyntaxError`, modelled here as the exceptional result. -/
theorem c5_regex_throw_eval :
    riPrepareScenarioResults 0 c5log = .error regexErrMsg := rfl

/-- **C6** (counterexample): the claim says an accepted Failed event stores
the captured detail when present.  On `c6log` the failure line carries the
detail `timeout`, yet the resulting scenario's error is the generic
`Scenario failed` string — the failure regex of the state machine captures no
detail. -/
theorem c6_detail_dropped_counterexample :
    (shinyPrepareScenarioResults 0 c6log).map
        (fun s => (s.status, s.error, s.duration)) =
      [(Status.failed, some "Scenario failed", some 5000)] ∧
    lcontains c6log.toList "failed: timeout".toList = true ∧
    some "Scenario failed" ≠ some "timeout" :=
  ⟨rfl, rfl, by decide⟩

/-- **C6** (amended): whenever a scenario of the state-machine variant's
result has status failed, its error is *always* the generic `Scenario failed`
string (never a captured detail) and its duration is the placeholder 5000. -/
theorem c6_failed_error_generic (now : Nat) (logS : String) (s : Scenario)
    (hmem : s ∈ shinyPrepareScenarioResults now logS) (hf : s.status = .failed) :
    s.error = some "Scenario failed" ∧ s.duration = some 5000 :=
  shinyPrepare_fg now logS s hmem hf

/-- **C6** (witness): the amended theorem applied to `c6log`'s failed
scenario. -/
theorem c6_failed_error_generic_witness :
    ({ id := 1, name := "Alpha", status := .failed, startTime := 0,
       endTime := some 0, duration := some 5000,
       error := some "Scenario failed", warnings := [] } : Scenario).error =
        some "Scenario failed" ∧
    ({ id := 1, name := "Alpha", status := .failed, startTime := 0,
       endTime := some 0, duration := some 5000,
       error := some "Scenario failed", warnings := [] } : Scenario).duration =
        some 5000 :=
  c6_failed_error_generic 0 c6log _ (by decide) rfl

/-- **C7** (counterexample): the claim says that without an explicit marker
the produced `averageResponseTime` is the mean of the scenario durations when
any are present.  On the concrete log (no marker, four scenarios of duration
5000) the pipeline stores the default 500 — `processTestLog` always sets a
nonzero value, so `generateSummary`'s mean fallback (which would give 5000)
never runs. -/
theorem c7_mean_unreachable_counterexample :
    parseRespTime c2log.toList = none ∧
    riPrepareScenarioResults 0 c2log = .ok c2Expected ∧
    pipelineART c2log c2Expected = 500 ∧
    summaryART 0 c2Expected = 5000 ∧
    (500 : ℚ) ≠ 5000 := by
  refine ⟨rfl, rfl, rfl, ?_, by norm_num⟩
  norm_num [summaryART, c2Expected, durTruthy, mkDefault]

/-- **C7** (amended): the produced `averageResponseTime` equals the marker
value when a (nonzero) `Average response time: Xms` marker is present, and
500 otherwise, regardless of scenario durations; the duration-mean fallback of
`generateSummary` only fires on a stored zero, which the pipeline's default
prevents. -/
theorem c7_art_marker_or_default (logS : String) (scens : List Scenario) :
    (parseRespTime logS.toList = none → pipelineART logS scens = 500) ∧
    (∀ x, parseRespTime logS.toList = some x → x ≠ 0 →
      pipelineART logS scens = (x : ℚ)) := by
  constructor
  · intro h
    unfold pipelineART processedART
    rw [h]
    unfold summaryART
    rw [if_neg (by simp)]
    norm_num
  · intro x h hx
    unfold pipelineART processedART
    rw [h]
    unfold summaryART
    rw [if_neg (fun hc => hx hc.1)]

/-- **C7** (witness): both branches of the amended theorem at concrete
inputs. -/
theorem c7_art_marker_or_default_witness :
    pipelineART "quiet log" [] = 500 ∧
    pipelineART "Average response time: 7ms" [] = (7 : ℚ) :=
  ⟨(c7_art_marker_or_default "quiet log" []).1 rfl,
   (c7_art_marker_or_default "Average response time: 7ms" []).2 7 rfl (by decide)⟩

/-- **C8** (code bug): the claim — matching the spec — says each error record
captures the text from the match to the next line break, including on a final
line without a trailing newline.  There `indexOf('\n')` is −1 and
`substring(match.index, -1)` swaps to the *prefix before the match*: on
`"xx\nError: boom"` the recorded message is `xx`, not `Error: boom`. -/
theorem c8_error_line_eval :
    extractErrors "xx\nError: boom" = ["xx"] ∧ "xx" ≠ "Error: boom" :=
  ⟨rfl, by decide⟩

/-- **C9**: parsing the same log twice (at different wall-clock times) yields
scenario lists identical in name, status and id, for both preparation
functions; only the timestamp fields depend on the parse time. -/
theorem c9_idempotence (t1 t2 : Nat) (logS : String) :
    (riPrepareScenarioResults t1 logS).map (List.map nsiProj) =
      (riPrepareScenarioResults t2 logS).map (List.map nsiProj) ∧
    (shinyPrepareScenarioResults t1 logS).map nsiProj =
      (shinyPrepareScenarioResults t2 logS).map nsiProj := by
  constructor
  · rw [riPrepare_setTimes t1 logS, riPrepare_setTimes t2 logS]
    cases riPrepareScenarioResults 0 logS with
    | error e => rfl
    | ok l =>
      simp only [Except.map, List.map_map]
      rfl
  · rw [shinyPrepare_setTimes t1 logS, shinyPrepare_setTimes t2 logS]
    simp only [List.map_map]
    rfl

/-- **C10**: every synthetic entry appended by the `Unknown Scenario` filler
loop is named `Unknown Scenario N` with `N` equal to its id plus one (the
shared counter is post-incremented before the template string reads it), so
the number in the name never equals the entry's own id. -/
theorem c10_unknown_scenario_name (now total fuel : Nat) (acc : List Scenario)
    (c : Nat) (s : Scenario) (h : s ∈ (fillGo now total fuel (acc, c)).1) :
    s ∈ acc ∨ (s.name = "Unknown Scenario " ++ toString (s.id + 1) ∧
      s.id + 1 ≠ s.id) := by
  rcases fillGo_mem now total fuel acc c s h with h2 | h2
  · exact Or.inl h2
  · exact Or.inr ⟨h2.2, by omega⟩

/-- **C10** (witness): one filler step from counter 5 produces the entry with
id 5 named `Unknown Scenario 6`. -/
theorem c10_unknown_scenario_name_witness :
    mkDefault 5 5 "Unknown Scenario 6" ∈ ([] : List Scenario) ∨
    ((mkDefault 5 5 "Unknown Scenario 6").name =
        "Unknown Scenario " ++ toString ((mkDefault 5 5 "Unknown Scenario 6").id + 1) ∧
      (mkDefault 5 5 "Unknown Scenario 6").id + 1 ≠
        (mkDefault 5 5 "Unknown Scenario 6").id) :=
  c10_unknown_scenario_name 5 1 1 [] 5 _ (by decide)

end QaBot
